import Mathlib

/-!
Shallow embedding of `src/remoteOps/defs.py` (remote two-qubit operation
macros for circuit objects) and verification of the specification claims.

Modelling conventions, following the specification section 3 data model:
* a qubit or classical-bit unit is the pair (register name, index);
* an instruction is a record of kind name, numeric parameters (rationals),
  qubit operands, classical-bit operands and an optional classical
  condition (bit, expected value) coming from `c_if`;
* a circuit is its quantum registers, classical registers and ordered
  instruction list; registers compare by name and size as in the host
  library, and the quantum/classical kind is captured by which register
  list holds them;
* Python exceptions are modelled by returning the final circuit state
  together with an `Option Err` / `Except Err` value: a raised exception
  stops execution, but in-place mutations made before the raise persist
  on the returned circuit.
-/

set_option autoImplicit false

namespace RemoteOps

/-- A qubit unit: (register name, index within the register). -/
abbrev Qubit := String × ℕ

/-- A classical-bit unit: (register name, index within the register). -/
abbrev Clbit := String × ℕ

/-- A named fixed-length register. The host library compares registers by
name, size and kind; the kind is captured by the circuit field holding it. -/
structure Register where
  name : String
  size : ℕ
deriving DecidableEq, Repr

/-- The unit of a register at a given index. -/
def Register.bit (r : Register) (i : ℕ) : String × ℕ := (r.name, i)

/-- All units of a register, in order. -/
def Register.bits (r : Register) : List (String × ℕ) :=
  (List.range r.size).map r.bit

/-- One circuit instruction (specification section 3). -/
structure Instr where
  name : String
  params : List ℚ
  qargs : List Qubit
  cargs : List Clbit
  cond : Option (Clbit × ℕ)
deriving DecidableEq, Repr

/-- Attach a classical condition, as `instruction.c_if(bit, value)`. -/
def Instr.c_if (i : Instr) (c : Clbit) (v : ℕ) : Instr :=
  { i with cond := some (c, v) }

/-- The gate `circ.cnot(c, t)`. -/
def cnot (c t : Qubit) : Instr := ⟨"cx", [], [c, t], [], none⟩

/-- The gate `circ.h(q)`. -/
def hGate (q : Qubit) : Instr := ⟨"h", [], [q], [], none⟩

/-- The gate `circ.x(q)`. -/
def xGate (q : Qubit) : Instr := ⟨"x", [], [q], [], none⟩

/-- The gate `circ.z(q)`. -/
def zGate (q : Qubit) : Instr := ⟨"z", [], [q], [], none⟩

/-- The gate `circ.rz(phi, q)`. -/
def rzGate (phi : ℚ) (q : Qubit) : Instr := ⟨"rz", [phi], [q], [], none⟩

/-- The gate `circ.swap(a, b)`. -/
def swapGate (a b : Qubit) : Instr := ⟨"swap", [], [a, b], [], none⟩

/-- The operation `circ.measure(q, c)`. -/
def measureInto (q : Qubit) (c : Clbit) : Instr := ⟨"measure", [], [q], [c], none⟩

/-- A circuit: register sets plus the ordered instruction sequence. -/
structure Circuit where
  qregs : List Register
  cregs : List Register
  data : List Instr
deriving DecidableEq, Repr

/-- Error kinds raised by the embedded code.
`nameCollision` is the host-library error from `add_register` on a duplicate
register name; `circuitError` is a host-library append/indexing failure that
escapes uncaught; `undefinedInstruction` is the caught-and-rewrapped
BaseException with message Undefined instruction! in `addInstr`;
`malformedOperands` is an arity mismatch when `decompose` forwards the
operands of a matched instruction to a protocol builder. -/
inductive Err where
  | nameCollision
  | circuitError
  | undefinedInstruction
  | malformedOperands
deriving DecidableEq, Repr

/-- Default list used as the `getD` fallback for classical-bit lookup; every
use is guarded so the fallback is never reached. -/
def cbDefault : Clbit := ("", 0)

/-! ### Protocol library (`setAncilla` and the four build functions)

Each builder is the list of instructions the Python function appends to its
target circuit, in order. The classical register argument is the list of
classical bits it was called with; `creg[0]` and `creg[1]` become `getD`
lookups, and each caller checks the length bound first, as the Python code
would raise on an out-of-range index. -/

/-- Lines 65-70: `setAncilla(circ, epr0, epr1, creg=None)`. The `creg`
argument of the source is unused there and is dropped here. -/
def setAncilla (epr0 epr1 : Qubit) : List Instr :=
  [hGate epr0, cnot epr0 epr1]

/-- Lines 73-100: `buildRemoteCRZ(circ, phi, ctrl, targ, epr0, epr1, creg)`. -/
def buildRemoteCRZ (phi : ℚ) (ctrl targ epr0 epr1 : Qubit) (creg : List Clbit) :
    List Instr :=
  [rzGate (phi / 2) ctrl,
   rzGate (phi / 2) targ,
   cnot ctrl epr0,
   measureInto epr0 (creg.getD 0 cbDefault),
   (xGate epr1).c_if (creg.getD 0 cbDefault) 1,
   cnot targ epr1,
   rzGate (-(phi / 2)) epr1,
   hGate epr1,
   measureInto epr1 (creg.getD 1 cbDefault),
   (zGate ctrl).c_if (creg.getD 1 cbDefault) 1,
   (zGate targ).c_if (creg.getD 1 cbDefault) 1]

/-- Lines 103-129: `buildRemoteZZ(circ, phi, qb1, qb2, epr0, epr1, creg)`.
Note line 119 conditions the first X correction on `creg[1]`, not `creg[0]`. -/
def buildRemoteZZ (phi : ℚ) (qb1 qb2 epr0 epr1 : Qubit) (creg : List Clbit) :
    List Instr :=
  [cnot qb1 epr0,
   cnot qb2 epr1,
   measureInto epr0 (creg.getD 0 cbDefault),
   (xGate epr1).c_if (creg.getD 1 cbDefault) 1,
   rzGate phi epr1,
   hGate epr1,
   measureInto epr1 (creg.getD 1 cbDefault),
   (zGate qb1).c_if (creg.getD 1 cbDefault) 1,
   (zGate qb2).c_if (creg.getD 1 cbDefault) 1,
   (xGate epr0).c_if (creg.getD 0 cbDefault) 1,
   (xGate epr1).c_if (creg.getD 1 cbDefault) 1]

/-- Lines 132-155: `buildRemoteCX(circ, ctrl, targ, epr0, epr1, creg)`. -/
def buildRemoteCX (ctrl targ epr0 epr1 : Qubit) (creg : List Clbit) :
    List Instr :=
  [cnot ctrl epr0,
   cnot epr1 targ,
   measureInto epr0 (creg.getD 0 cbDefault),
   (xGate epr1).c_if (creg.getD 0 cbDefault) 1,
   (xGate targ).c_if (creg.getD 0 cbDefault) 1,
   hGate epr1,
   measureInto epr1 (creg.getD 1 cbDefault),
   (zGate ctrl).c_if (creg.getD 1 cbDefault) 1,
   (xGate epr0).c_if (creg.getD 0 cbDefault) 1,
   (xGate epr1).c_if (creg.getD 1 cbDefault) 1]

/-- Lines 158-182: `buildTeleportation(circ, source, targ, epr0, epr1, creg)`. -/
def buildTeleportation (source targ epr0 epr1 : Qubit) (creg : List Clbit) :
    List Instr :=
  [cnot source epr0,
   hGate source,
   measureInto source (creg.getD 0 cbDefault),
   measureInto epr0 (creg.getD 1 cbDefault),
   (xGate epr1).c_if (creg.getD 1 cbDefault) 1,
   (zGate epr1).c_if (creg.getD 0 cbDefault) 1,
   (xGate source).c_if (creg.getD 0 cbDefault) 1,
   (xGate epr0).c_if (creg.getD 1 cbDefault) 1,
   swapGate epr1 targ]

/-! ### Resource registry (`get_cregs`, `get_qregs`) -/

/-- A register reference as accepted by the registry: either a name string
or a register handle (`None` is modelled by `Option` at the call sites). -/
inductive RegRef where
  | name (s : String)
  | reg (r : Register)
deriving DecidableEq, Repr

/-- Creation branch of `get_cregs` (lines 29-32): build
`ClassicalRegister(2, "c_epr")` and `circ.add_register` it. The host
library raises on a duplicate register name across both register sets. -/
def add_c_epr (circ : Circuit) : Circuit × Except Err (RegRef × Bool) :=
  if (circ.qregs ++ circ.cregs).any (fun r => decide (r.name = "c_epr")) then
    (circ, Except.error Err.nameCollision)
  else
    ({ circ with cregs := circ.cregs ++ [Register.mk "c_epr" 2] },
      Except.ok (RegRef.reg (Register.mk "c_epr" 2), true))

/-- Creation branch of `get_qregs` (lines 57-60), symmetric for `"q_epr"`. -/
def add_q_epr (circ : Circuit) : Circuit × Except Err (RegRef × Bool) :=
  if (circ.qregs ++ circ.cregs).any (fun r => decide (r.name = "q_epr")) then
    (circ, Except.error Err.nameCollision)
  else
    ({ circ with qregs := circ.qregs ++ [Register.mk "q_epr" 2] },
      Except.ok (RegRef.reg (Register.mk "q_epr" 2), true))

/-- Lines 8-34: `get_cregs(circ, creg)`. Given a name string, the presence
test is `circ.has_register(ClassicalRegister(2, name))`, which matches only
a classical register of that name AND size 2; given a handle, it is a
membership test; given `None`, it is false and the creation branch runs.
When the presence test succeeds the given reference itself is returned with
`reg_added = false`; a matching name string is NOT resolved to the handle. -/
def get_cregs (circ : Circuit) (creg : Option RegRef) :
    Circuit × Except Err (RegRef × Bool) :=
  match creg with
  | none => add_c_epr circ
  | some (RegRef.name s) =>
    if Register.mk s 2 ∈ circ.cregs then (circ, Except.ok (RegRef.name s, false))
    else add_c_epr circ
  | some (RegRef.reg r) =>
    if r ∈ circ.cregs then (circ, Except.ok (RegRef.reg r, false))
    else add_c_epr circ

/-- Lines 36-62: `get_qregs(circ, qreg)`, symmetric to `get_cregs`. -/
def get_qregs (circ : Circuit) (qreg : Option RegRef) :
    Circuit × Except Err (RegRef × Bool) :=
  match qreg with
  | none => add_q_epr circ
  | some (RegRef.name s) =>
    if Register.mk s 2 ∈ circ.qregs then (circ, Except.ok (RegRef.name s, false))
    else add_q_epr circ
  | some (RegRef.reg r) =>
    if r ∈ circ.qregs then (circ, Except.ok (RegRef.reg r, false))
    else add_q_epr circ

/-! ### Macro insertion (`addInstr`) -/

/-- The four macro names that reach the guarded append of lines 223-226;
`GenEPR` is in the `instrSet` table too but is filtered out on line 222. -/
def instrNames : List String := ["RemoteCX", "RemoteRZZ", "RemoteCRZ", "Teleport"]

/-- Lines 185-226: `addInstr(circ, name, qb1, qb2, params, epr_creg, epr_qreg)`.

Control flow of the source: resolve the classical and quantum EPR registers
(lines 209-210, possibly adding registers), build
`qargs = [qb1, qb2, qreg[0], qreg[1]]`, unconditionally append a `GenEPR`
instruction over the whole resolved quantum register (line 221), then for
any name other than `GenEPR` try to append `instrSet[name]` with those
qargs and the whole resolved classical register as cargs, rewrapping any
failure (unknown name, bad cargs) as the Undefined instruction error.

Host-library failure points, modelled as errors:
* a resolved quantum register reference that is still a name string cannot
  be used as a qargs specifier, so the line 221 append raises uncaught
  (Python string indexing on line 220 yields characters, and the append
  rejects them as qubits);
* a quantum register handle of size other than 2 fails the line 220
  indexing or the arity check of the line 221 append, uncaught;
* a classical register reference that is a name string, or a handle of
  size other than 2, makes the line 224 append raise, which the bare
  except catches and rewraps as `undefinedInstruction`.
The data-model invariant of the specification (operands reference units of
the circuit) is assumed for `qb1`, `qb2`. -/
def addInstr (circ : Circuit) (nm : String) (qb1 qb2 : Qubit) (params : List ℚ)
    (epr_creg epr_qreg : Option RegRef) : Circuit × Option Err :=
  match get_cregs circ epr_creg with
  | (c1, Except.error e) => (c1, some e)
  | (c1, Except.ok (creg, _)) =>
    match get_qregs c1 epr_qreg with
    | (c2, Except.error e) => (c2, some e)
    | (c2, Except.ok (qreg, _)) =>
      match qreg with
      | RegRef.name _ => (c2, some Err.circuitError)
      | RegRef.reg qr =>
        if qr.size = 2 then
          let c3 : Circuit :=
            { c2 with data := c2.data ++
                [Instr.mk "GenEPR" params [qr.bit 0, qr.bit 1] [] none] }
          if nm = "GenEPR" then (c3, none)
          else if nm ∈ instrNames then
            match creg with
            | RegRef.name _ => (c3, some Err.undefinedInstruction)
            | RegRef.reg cr =>
              if cr.size = 2 then
                ({ c3 with data := c3.data ++
                    [Instr.mk nm params [qb1, qb2, qr.bit 0, qr.bit 1] cr.bits none] },
                  none)
              else (c3, some Err.undefinedInstruction)
          else (c3, some Err.undefinedInstruction)
        else (c2, some Err.circuitError)

/-! ### The splice loop shared by `decompose` and `autosubstitute`

Both passes run the same chunked loop (lines 240-264 and 284-307): scan the
instruction list with an index, and on a match flush `circ[idxStart:idx]`
into the output chunks, append the replacement, and set `idxStart = idx+1`;
after the loop flush `circ[idxStart:]`. `spliceGo` is that loop with the
enumeration index and `idxStart` explicit; `spliceChunks` starts it the way
the source does. A replacement that raises aborts the pass, so the final
`circ.data` assignment never happens and the input data is kept. -/

def spliceGo (data : List Instr) (p : Instr → Bool)
    (repl : Instr → Except Err (List Instr)) :
    List Instr → ℕ → ℕ → List Instr → Except Err (List Instr)
  | [], _, idxStart, chunks => Except.ok (chunks ++ data.drop idxStart)
  | op :: rest, idx, idxStart, chunks =>
    if p op then
      match repl op with
      | Except.error e => Except.error e
      | Except.ok exp =>
        spliceGo data p repl rest (idx + 1) (idx + 1)
          (chunks ++ (data.drop idxStart).take (idx - idxStart) ++ exp)
    else
      spliceGo data p repl rest (idx + 1) idxStart chunks

/-- The full chunked pass over an instruction list. -/
def spliceChunks (data : List Instr) (p : Instr → Bool)
    (repl : Instr → Except Err (List Instr)) : Except Err (List Instr) :=
  spliceGo data p repl data 0 0 []

/-- Structural form of the splice loop: replace each matched instruction by
its replacement list and keep the rest, failing where a replacement fails.
Proved equal to `spliceChunks` below. -/
def spliceFlat (p : Instr → Bool) (repl : Instr → Except Err (List Instr)) :
    List Instr → Except Err (List Instr)
  | [] => Except.ok []
  | i :: rest =>
    if p i then
      match repl i, spliceFlat p repl rest with
      | Except.error e, _ => Except.error e
      | Except.ok _, Except.error e => Except.error e
      | Except.ok exp, Except.ok out => Except.ok (exp ++ out)
    else
      match spliceFlat p repl rest with
      | Except.error e => Except.error e
      | Except.ok out => Except.ok (i :: out)

/-! ### Expansion (`decompose`) -/

/-- The default `gates` argument of `decompose` (line 229). -/
def defaultGates : List String :=
  ["RemoteCX", "RemoteRZZ", "RemoteCRZ", "Teleport", "GenEPR"]

/-- Kind names of every instruction a protocol builder can emit. -/
def primNames : List String := ["cx", "h", "x", "z", "rz", "swap", "measure"]

/-- The dispatch of lines 246-257: `args = op[0].params + op[1] + [op[2]]`
is unpacked positionally into the matching builder. With the typed operand
lists of the embedding, the call succeeds exactly when the parameter count
and qubit-operand count match the builder arity and the classical operand
list is long enough for the `creg[0]`/`creg[1]` lookups; any other shape
raises in Python (unpacking TypeError, IndexError, or a host-library type
rejection) and is a `malformedOperands` error here. A name matched by the
`gates` list but absent from the if/elif chain invokes no builder at all,
so the scratch buffer stays empty and the instruction is dropped. -/
def expandOp (op : Instr) : Except Err (List Instr) :=
  if op.name = "RemoteCX" then
    match op.params, op.qargs with
    | [], [ctrl, targ, e0, e1] =>
      if 2 ≤ op.cargs.length then Except.ok (buildRemoteCX ctrl targ e0 e1 op.cargs)
      else Except.error Err.malformedOperands
    | _, _ => Except.error Err.malformedOperands
  else if op.name = "RemoteRZZ" then
    match op.params, op.qargs with
    | [phi], [qb1, qb2, e0, e1] =>
      if 2 ≤ op.cargs.length then Except.ok (buildRemoteZZ phi qb1 qb2 e0 e1 op.cargs)
      else Except.error Err.malformedOperands
    | _, _ => Except.error Err.malformedOperands
  else if op.name = "RemoteCRZ" then
    match op.params, op.qargs with
    | [phi], [ctrl, targ, e0, e1] =>
      if 2 ≤ op.cargs.length then Except.ok (buildRemoteCRZ phi ctrl targ e0 e1 op.cargs)
      else Except.error Err.malformedOperands
    | _, _ => Except.error Err.malformedOperands
  else if op.name = "Teleport" then
    match op.params, op.qargs with
    | [], [source, targ, e0, e1] =>
      if 2 ≤ op.cargs.length then Except.ok (buildTeleportation source targ e0 e1 op.cargs)
      else Except.error Err.malformedOperands
    | _, _ => Except.error Err.malformedOperands
  else if op.name = "GenEPR" then
    match op.params, op.qargs with
    | [], [e0, e1] => Except.ok (setAncilla e0 e1)
    | _, _ => Except.error Err.malformedOperands
  else Except.ok []

/-- Lines 229-264: `decompose(circ, gates)`. On success the rebuilt chunk
list replaces `circ.data`; on a raise the assignment on line 264 is never
reached, so the circuit is returned untouched with the error. -/
def decompose (circ : Circuit) (gates : List String) : Circuit × Option Err :=
  match spliceChunks circ.data (fun op => decide (op.name ∈ gates)) expandOp with
  | Except.ok d => ({ circ with data := d }, none)
  | Except.error e => (circ, some e)

/-! ### Substitution (`autosubstitute`) -/

/-- Lines 286-295 matching condition: exactly two qubit operands, operands
straddling the two partition lists in either order, and a kind listed in
`gates`. -/
def substPred (regA regB : List Qubit) (gates : List String) (op : Instr) : Bool :=
  match op.qargs with
  | [q0, q1] =>
    ((decide (q0 ∈ regA) && decide (q1 ∈ regB)) ||
     (decide (q1 ∈ regA) && decide (q0 ∈ regB))) && decide (op.name ∈ gates)
  | _ => false

/-- Lines 299-300 replacement: for a matched `cx`, run
`addInstr(tempCirc, "RemoteCX", op[1][0], op[1][1], [], creg, qreg)` on a
fresh scratch circuit (the register sets of the resolved circuit with empty
data) and splice in the instructions it appended; an exception inside
`addInstr` propagates. A matched kind other than `cx` reaches no branch,
so nothing is appended and the instruction is dropped. -/
def substRepl (tempCirc : Circuit) (creg qreg : RegRef) (op : Instr) :
    Except Err (List Instr) :=
  match op.qargs with
  | [q0, q1] =>
    if op.name = "cx" then
      match addInstr tempCirc "RemoteCX" q0 q1 [] (some creg) (some qreg) with
      | (tc, none) => Except.ok tc.data
      | (_, some e) => Except.error e
    else Except.ok []
  | _ => Except.ok []

/-- Lines 266-307: `autosubstitute(circ, reglist, gates, epr_qreg, epr_creg)`.
The registers are resolved once up front (mutating the circuit), the scratch
template `emptyCirc` is a copy of the resolved circuit with empty data, and
the chunked splice loop runs over the (unchanged) instruction list. On a
raise the line 307 assignment is never reached. -/
def autosubstitute (circ : Circuit) (reglist : List Qubit × List Qubit)
    (gates : List String) (epr_qreg epr_creg : Option RegRef) :
    Circuit × Option Err :=
  match get_cregs circ epr_creg with
  | (c1, Except.error e) => (c1, some e)
  | (c1, Except.ok (creg, _)) =>
    match get_qregs c1 epr_qreg with
    | (c2, Except.error e) => (c2, some e)
    | (c2, Except.ok (qreg, _)) =>
      match spliceChunks c2.data (substPred reglist.1 reglist.2 gates)
          (substRepl { c2 with data := [] } creg qreg) with
      | Except.ok d => ({ c2 with data := d }, none)
      | Except.error e => (c2, some e)

/-! ### Derived instruction values and concrete circuits -/

/-- The `GenEPR` instruction `addInstr` appends over the resolved quantum
register on line 221 (with an empty parameter list). -/
def genEPRInstr (qr : Register) : Instr :=
  Instr.mk "GenEPR" [] [qr.bit 0, qr.bit 1] [] none

/-- The macro instruction `autosubstitute` inserts for a straddling `cx`. -/
def remoteCXInstr (a b : Qubit) (qr cr : Register) : Instr :=
  Instr.mk "RemoteCX" [] [a, b, qr.bit 0, qr.bit 1] cr.bits none

/-- The remote-CX expansion scenario circuit of the specification: qubits
q0..q3 of register q (e0 = q2, e1 = q3), classical bits c0, c1, and a single
RemoteCX macro instruction. -/
def circScenario : Circuit :=
  Circuit.mk [Register.mk "q" 4] [Register.mk "c" 2]
    [Instr.mk "RemoteCX" []
      [("q", 0), ("q", 1), ("q", 2), ("q", 3)] [("c", 0), ("c", 1)] none]

/-- A circuit holding a single two-qubit `cz` gate across two qubits. -/
def circCZ : Circuit :=
  Circuit.mk [Register.mk "q" 2] []
    [Instr.mk "cz" [] [("q", 0), ("q", 1)] [] none]

/-- A circuit with pre-existing entanglement registers and one `cx`. -/
def circCX6 : Circuit :=
  Circuit.mk [Register.mk "q" 2, Register.mk "qe" 2] [Register.mk "ce" 2]
    [cnot ("q", 0) ("q", 1)]

/-- A circuit with one quantum and one classical register and no data. -/
def circRegPair : Circuit :=
  Circuit.mk [Register.mk "qq" 2] [Register.mk "cc" 2] []

/-- A circuit whose registers carry the default entanglement names. -/
def circEpr : Circuit :=
  Circuit.mk [Register.mk "q_epr" 2] [Register.mk "c_epr" 2] []

/-- The macro-kind table restricted as in the claim C4 amendment. -/
def kindsC4 : List String := ["RemoteCX", "cx"]

/-! ### The chunked loop equals the structural flat map -/

theorem spliceGo_eq_flat (data : List Instr) (p : Instr → Bool)
    (repl : Instr → Except Err (List Instr)) :
    ∀ (suf : List Instr) (idx s : ℕ) (A : List Instr),
      data.drop idx = suf → s ≤ idx →
      spliceGo data p repl suf idx s A
        = match spliceFlat p repl suf with
          | Except.ok out => Except.ok (A ++ (data.drop s).take (idx - s) ++ out)
          | Except.error e => Except.error e := by
  intro suf
  induction suf with
  | nil =>
    intro idx s A hdrop hs
    have hlen : data.length ≤ idx := List.drop_eq_nil_iff.mp hdrop
    have htake : (data.drop s).take (idx - s) = data.drop s := by
      apply List.take_of_length_le
      rw [List.length_drop]
      omega
    simp [spliceGo, spliceFlat, htake]
  | cons op rest ih =>
    intro idx s A hdrop hs
    have hget : data[idx]? = some op := by
      have h0 : (data.drop idx)[0]? = some op := by rw [hdrop]; simp
      rw [List.getElem?_drop] at h0
      simpa using h0
    have hrest : data.drop (idx + 1) = rest := by
      have h1 : data.drop (idx + 1) = (data.drop idx).drop 1 := by
        rw [List.drop_drop]
      rw [h1, hdrop]
      rfl
    have htake1 : (data.drop s).take (idx + 1 - s)
        = (data.drop s).take (idx - s) ++ [op] := by
      have h1 : idx + 1 - s = (idx - s) + 1 := by omega
      rw [h1, List.take_succ, List.getElem?_drop]
      have h2 : s + (idx - s) = idx := by omega
      rw [h2, hget]
      rfl
    cases hp : p op with
    | false =>
      have hih := ih (idx + 1) s A hrest (by omega)
      simp only [spliceGo, hp, Bool.false_eq_true, if_false, hih]
      simp only [spliceFlat, hp, Bool.false_eq_true, if_false]
      cases hf : spliceFlat p repl rest with
      | ok out => simp [htake1]
      | error e => rfl
    | true =>
      simp only [spliceGo, hp, if_true]
      cases hr : repl op with
      | error e =>
        simp only [spliceFlat, hp, if_true, hr]
      | ok exp =>
        have hih := ih (idx + 1) (idx + 1)
          (A ++ (data.drop s).take (idx - s) ++ exp) hrest (le_refl _)
        simp only [hih]
        simp only [spliceFlat, hp, if_true, hr]
        cases hf : spliceFlat p repl rest with
        | ok out => simp
        | error e => rfl

theorem spliceChunks_eq_flat (data : List Instr) (p : Instr → Bool)
    (repl : Instr → Except Err (List Instr)) :
    spliceChunks data p repl = spliceFlat p repl data := by
  have h := spliceGo_eq_flat data p repl data 0 0 [] rfl (le_refl 0)
  rw [spliceChunks, h]
  cases spliceFlat p repl data <;> simp

theorem spliceFlat_append (p : Instr → Bool)
    (repl : Instr → Except Err (List Instr)) (xs ys : List Instr) :
    spliceFlat p repl (xs ++ ys)
      = match spliceFlat p repl xs with
        | Except.ok o1 =>
          match spliceFlat p repl ys with
          | Except.ok o2 => Except.ok (o1 ++ o2)
          | Except.error e => Except.error e
        | Except.error e => Except.error e := by
  induction xs with
  | nil =>
    simp only [List.nil_append, spliceFlat]
    cases spliceFlat p repl ys <;> rfl
  | cons i xs ih =>
    simp only [List.cons_append]
    cases hp : p i with
    | false =>
      simp only [spliceFlat, hp, Bool.false_eq_true, if_false]
      rw [ih]
      cases spliceFlat p repl xs <;> cases spliceFlat p repl ys <;> simp
    | true =>
      simp only [spliceFlat, hp, if_true]
      rw [ih]
      cases repl i <;> cases spliceFlat p repl xs <;>
        cases spliceFlat p repl ys <;> simp

theorem spliceFlat_mid_nomatch (p : Instr → Bool)
    (repl : Instr → Except Err (List Instr)) (pre post : List Instr) (i : Instr)
    (o1 o2 : List Instr) (hp : p i = false)
    (hpre : spliceFlat p repl pre = Except.ok o1)
    (hpost : spliceFlat p repl post = Except.ok o2) :
    spliceFlat p repl (pre ++ i :: post) = Except.ok (o1 ++ i :: o2) := by
  rw [spliceFlat_append, hpre]
  simp only [spliceFlat, hp, Bool.false_eq_true, if_false, hpost]

theorem spliceFlat_mid_match (p : Instr → Bool)
    (repl : Instr → Except Err (List Instr)) (pre post : List Instr) (i : Instr)
    (e o1 o2 : List Instr) (hp : p i = true) (hr : repl i = Except.ok e)
    (hpre : spliceFlat p repl pre = Except.ok o1)
    (hpost : spliceFlat p repl post = Except.ok o2) :
    spliceFlat p repl (pre ++ i :: post) = Except.ok (o1 ++ e ++ o2) := by
  rw [spliceFlat_append, hpre]
  simp only [spliceFlat, hp, if_true, hr, hpost, List.append_assoc]

/-! ### Characterizations of `decompose` -/

theorem decompose_eq_flat (circ : Circuit) (gates : List String) :
    decompose circ gates
      = match spliceFlat (fun op => decide (op.name ∈ gates)) expandOp circ.data with
        | Except.ok d => ({ circ with data := d }, none)
        | Except.error e => (circ, some e) := by
  rw [decompose, spliceChunks_eq_flat]

theorem decompose_ok_data (c : Circuit) (g : List String) (c2 : Circuit)
    (h : decompose c g = (c2, none)) :
    spliceFlat (fun op => decide (op.name ∈ g)) expandOp c.data
      = Except.ok c2.data := by
  rw [decompose_eq_flat] at h
  cases hs : spliceFlat (fun op => decide (op.name ∈ g)) expandOp c.data with
  | ok d =>
    rw [hs] at h
    rw [Prod.mk.injEq] at h
    rw [← h.1]
  | error e =>
    rw [hs] at h
    rw [Prod.mk.injEq] at h
    exact absurd h.2 (by simp)

theorem expandOp_unmatched (op : Instr) (h : op.name ∉ defaultGates) :
    expandOp op = Except.ok [] := by
  simp only [defaultGates, List.mem_cons, List.not_mem_nil, or_false] at h
  push_neg at h
  obtain ⟨h1, h2, h3, h4, h5⟩ := h
  simp [expandOp, h1, h2, h3, h4, h5]

theorem prim_not_macro : ∀ n ∈ primNames, n ∉ defaultGates := by decide

theorem name_cnot (c t : Qubit) : (cnot c t).name = "cx" := rfl

theorem name_h (q : Qubit) : (hGate q).name = "h" := rfl

theorem name_x (q : Qubit) : (xGate q).name = "x" := rfl

theorem name_z (q : Qubit) : (zGate q).name = "z" := rfl

theorem name_rz (phi : ℚ) (q : Qubit) : (rzGate phi q).name = "rz" := rfl

theorem name_swap (a b : Qubit) : (swapGate a b).name = "swap" := rfl

theorem name_measure (q : Qubit) (c : Clbit) : (measureInto q c).name = "measure" := rfl

theorem name_c_if (i : Instr) (c : Clbit) (v : ℕ) : (i.c_if c v).name = i.name := rfl

theorem expandOp_ok_names (op : Instr) (e : List Instr)
    (h : expandOp op = Except.ok e) :
    ∀ j ∈ e, j.name ∈ primNames := by
  unfold expandOp at h
  split at h
  · split at h
    · split at h
      · cases h
        intro j hj
        simp only [buildRemoteCX, List.mem_cons, List.not_mem_nil, or_false] at hj
        rcases hj with rfl|rfl|rfl|rfl|rfl|rfl|rfl|rfl|rfl|rfl <;>
          simp only [name_cnot, name_h, name_x, name_z, name_rz, name_swap,
            name_measure, name_c_if] <;> decide
      · cases h
    · cases h
  · split at h
    · split at h
      · split at h
        · cases h
          intro j hj
          simp only [buildRemoteZZ, List.mem_cons, List.not_mem_nil, or_false] at hj
          rcases hj with rfl|rfl|rfl|rfl|rfl|rfl|rfl|rfl|rfl|rfl|rfl <;>
            simp only [name_cnot, name_h, name_x, name_z, name_rz, name_swap,
              name_measure, name_c_if] <;> decide
        · cases h
      · cases h
    · split at h
      · split at h
        · split at h
          · cases h
            intro j hj
            simp only [buildRemoteCRZ, List.mem_cons, List.not_mem_nil,
              or_false] at hj
            rcases hj with rfl|rfl|rfl|rfl|rfl|rfl|rfl|rfl|rfl|rfl|rfl <;>
            simp only [name_cnot, name_h, name_x, name_z, name_rz, name_swap,
              name_measure, name_c_if] <;> decide
          · cases h
        · cases h
      · split at h
        · split at h
          · split at h
            · cases h
              intro j hj
              simp only [buildTeleportation, List.mem_cons, List.not_mem_nil,
                or_false] at hj
              rcases hj with rfl|rfl|rfl|rfl|rfl|rfl|rfl|rfl|rfl <;>
                simp only [name_cnot, name_h, name_x, name_z, name_rz, name_swap,
                  name_measure, name_c_if] <;> decide
            · cases h
          · cases h
        · split at h
          · split at h
            · cases h
              intro j hj
              simp only [setAncilla, List.mem_cons, List.not_mem_nil,
                or_false] at hj
              rcases hj with rfl|rfl <;>
                simp only [name_cnot, name_h, name_x, name_z, name_rz, name_swap,
                  name_measure, name_c_if] <;> decide
            · cases h
          · cases h
            intro j hj
            exact absurd hj (List.not_mem_nil j)

/-! ### Characterizations of the resource registry -/

theorem get_cregs_reg_mem (circ : Circuit) (r : Register) (h : r ∈ circ.cregs) :
    get_cregs circ (some (RegRef.reg r)) = (circ, Except.ok (RegRef.reg r, false)) := by
  simp [get_cregs, h]

theorem get_cregs_name_mem (circ : Circuit) (s : String)
    (h : Register.mk s 2 ∈ circ.cregs) :
    get_cregs circ (some (RegRef.name s))
      = (circ, Except.ok (RegRef.name s, false)) := by
  simp [get_cregs, h]

theorem get_qregs_reg_mem (circ : Circuit) (r : Register) (h : r ∈ circ.qregs) :
    get_qregs circ (some (RegRef.reg r)) = (circ, Except.ok (RegRef.reg r, false)) := by
  simp [get_qregs, h]

theorem get_qregs_name_mem (circ : Circuit) (s : String)
    (h : Register.mk s 2 ∈ circ.qregs) :
    get_qregs circ (some (RegRef.name s))
      = (circ, Except.ok (RegRef.name s, false)) := by
  simp [get_qregs, h]

/-! ### Characterization of `addInstr` and `autosubstitute` replacement -/

theorem addInstr_reg_refs (circ : Circuit) (cr qr : Register) (a b : Qubit)
    (hcr : cr ∈ circ.cregs) (hqr : qr ∈ circ.qregs)
    (hcs : cr.size = 2) (hqs : qr.size = 2) :
    addInstr circ "RemoteCX" a b [] (some (RegRef.reg cr)) (some (RegRef.reg qr))
      = ({ circ with data := circ.data ++ [genEPRInstr qr, remoteCXInstr a b qr cr] },
          none) := by
  rw [addInstr, get_cregs_reg_mem circ cr hcr]
  simp [get_qregs_reg_mem circ qr hqr, hcs, hqs, instrNames, genEPRInstr,
    remoteCXInstr]

theorem substRepl_cx (circ : Circuit) (cr qr : Register) (a b : Qubit) (op : Instr)
    (hcr : cr ∈ circ.cregs) (hqr : qr ∈ circ.qregs)
    (hcs : cr.size = 2) (hqs : qr.size = 2)
    (hdata : circ.data = [])
    (hname : op.name = "cx") (hargs : op.qargs = [a, b]) :
    substRepl circ (RegRef.reg cr) (RegRef.reg qr) op
      = Except.ok [genEPRInstr qr, remoteCXInstr a b qr cr] := by
  rw [substRepl, hargs]
  simp only [hname, if_true]
  rw [addInstr_reg_refs circ cr qr a b hcr hqr hcs hqs]
  simp [hdata]

theorem substRepl_noncx (tempCirc : Circuit) (creg qreg : RegRef) (op : Instr)
    (h : op.name ≠ "cx") :
    substRepl tempCirc creg qreg op = Except.ok [] := by
  rw [substRepl]
  rcases op.qargs with _ | ⟨x, _ | ⟨y, _ | _⟩⟩ <;> simp [h]

theorem substPred_eq_true (A B : List Qubit) (gates : List String) (op : Instr)
    (a b : Qubit) (hargs : op.qargs = [a, b]) :
    substPred A B gates op = true
      ↔ (((a ∈ A ∧ b ∈ B) ∨ (b ∈ A ∧ a ∈ B)) ∧ op.name ∈ gates) := by
  rw [substPred, hargs]
  simp

/-- With already-present handle references of size 2, register resolution in
`autosubstitute` leaves the circuit untouched, and the pass is the flat
splice with the `cx` replacement list computed by `addInstr` on the scratch
circuit. -/
theorem autosubstitute_eq_flat (circ : Circuit) (cr qr : Register)
    (A B : List Qubit) (gates : List String)
    (hcr : cr ∈ circ.cregs) (hqr : qr ∈ circ.qregs) :
    autosubstitute circ (A, B) gates (some (RegRef.reg qr)) (some (RegRef.reg cr))
      = match spliceFlat (substPred A B gates)
            (substRepl { circ with data := [] } (RegRef.reg cr) (RegRef.reg qr))
            circ.data with
        | Except.ok d => ({ circ with data := d }, none)
        | Except.error e => (circ, some e) := by
  rw [autosubstitute, get_cregs_reg_mem circ cr hcr]
  simp only [get_qregs_reg_mem circ qr hqr, spliceChunks_eq_flat]

theorem instrNames_sub : ∀ n ∈ instrNames, n ∈ defaultGates := by decide

/-- Every instruction in a successful expansion pass over `data` has a kind
outside `kinds`, provided `kinds` only lists macro kinds. -/
theorem spliceFlat_expand_names (kinds : List String)
    (hsub : ∀ n ∈ kinds, n ∈ defaultGates) :
    ∀ (data out : List Instr),
      spliceFlat (fun op => decide (op.name ∈ kinds)) expandOp data
        = Except.ok out →
      ∀ j ∈ out, j.name ∉ kinds := by
  intro data
  induction data with
  | nil =>
    intro out h j hj
    rw [spliceFlat] at h
    cases h
    cases hj
  | cons i rest ih =>
    intro out h j hj
    simp only [spliceFlat] at h
    cases hb : decide (i.name ∈ kinds) with
    | true =>
      rw [if_pos hb] at h
      cases hexp : expandOp i with
      | error e => rw [hexp] at h; cases h
      | ok exp =>
        rw [hexp] at h
        cases hrest : spliceFlat (fun op => decide (op.name ∈ kinds)) expandOp rest with
        | error e => rw [hrest] at h; cases h
        | ok o2 =>
          rw [hrest] at h
          cases h
          rcases List.mem_append.mp hj with hj1 | hj2
          · intro hjk
            exact prim_not_macro j.name (expandOp_ok_names i exp hexp j hj1)
              (hsub j.name hjk)
          · exact ih o2 hrest j hj2
    | false =>
      rw [if_neg (by simp [hb])] at h
      cases hrest : spliceFlat (fun op => decide (op.name ∈ kinds)) expandOp rest with
      | error e => rw [hrest] at h; cases h
      | ok o2 =>
        rw [hrest] at h
        cases h
        rcases List.mem_cons.mp hj with rfl | hj2
        · exact of_decide_eq_false hb
        · exact ih o2 hrest j hj2

/-! ### Claim C3 -/

/-- C3: for a circuit whose instruction sequence is exactly one RemoteCX
instruction with qubit operands (q0, q1, e0, e1) and classical operands
(c0, c1), decompose replaces the sequence with exactly the ten claimed
instructions in the claimed order: CNOT(q0,e0); CNOT(e1,q1); measure(e0,c0);
X(e1) if c0=1; X(q1) if c0=1; H(e1); measure(e1,c1); Z(q0) if c1=1;
X(e0) if c0=1; X(e1) if c1=1. -/
theorem decompose_remoteCX_scenario :
    decompose circScenario defaultGates
      = ({ circScenario with data :=
            [cnot ("q", 0) ("q", 2),
             cnot ("q", 3) ("q", 1),
             measureInto ("q", 2) ("c", 0),
             (xGate ("q", 3)).c_if ("c", 0) 1,
             (xGate ("q", 1)).c_if ("c", 0) 1,
             hGate ("q", 3),
             measureInto ("q", 3) ("c", 1),
             (zGate ("q", 0)).c_if ("c", 1) 1,
             (xGate ("q", 2)).c_if ("c", 0) 1,
             (xGate ("q", 3)).c_if ("c", 1) 1] }, none) := by
  decide

/-! ### Claim C5 -/

/-- C5: decompose preserves order exactly: an instruction whose kind is not
in `gates` appears in the output preceded by exactly the expansion of the
instructions that preceded it and followed by exactly the expansion of the
instructions that followed it, and the expansion of a matched instruction
appears contiguously at the position of the macro instruction it replaces. -/
theorem decompose_order_preservation (circ : Circuit) (g : List String)
    (pre post : List Instr) (i : Instr) (o1 o2 : List Instr)
    (hdata : circ.data = pre ++ i :: post)
    (hpre : decompose { circ with data := pre } g = ({ circ with data := o1 }, none))
    (hpost : decompose { circ with data := post } g = ({ circ with data := o2 }, none)) :
    (i.name ∉ g → decompose circ g = ({ circ with data := o1 ++ i :: o2 }, none))
    ∧ (∀ e, i.name ∈ g → expandOp i = Except.ok e →
        decompose circ g = ({ circ with data := o1 ++ e ++ o2 }, none)) := by
  have h1 : spliceFlat (fun op => decide (op.name ∈ g)) expandOp pre
      = Except.ok o1 := decompose_ok_data _ g _ hpre
  have h2 : spliceFlat (fun op => decide (op.name ∈ g)) expandOp post
      = Except.ok o2 := decompose_ok_data _ g _ hpost
  constructor
  · intro hni
    rw [decompose_eq_flat, hdata]
    rw [spliceFlat_mid_nomatch _ _ pre post i o1 o2
      (by simp only [decide_eq_false_iff_not]; exact hni) h1 h2]
  · intro e hin hee
    rw [decompose_eq_flat, hdata]
    rw [spliceFlat_mid_match _ _ pre post i e o1 o2
      (by simp only [decide_eq_true_eq]; exact hin) hee h1 h2]

/-- Witness for C5 at a concrete circuit with one non-matching gate. -/
theorem decompose_order_preservation_witness :
    decompose (Circuit.mk [Register.mk "q" 1] [] [hGate ("q", 0)]) defaultGates
      = ({ Circuit.mk [Register.mk "q" 1] [] [hGate ("q", 0)] with
            data := [hGate ("q", 0)] }, none) :=
  (decompose_order_preservation
    (Circuit.mk [Register.mk "q" 1] [] [hGate ("q", 0)]) defaultGates
    [] [] (hGate ("q", 0)) [] [] rfl (by decide) (by decide)).1 (by decide)

/-! ### Claim C9 -/

/-- C9: for a set `g` containing a kind that is not one of the five macro
kinds, decompose deletes every instruction of that kind from the output
without emitting a replacement and without raising an error. -/
theorem decompose_deletes_unmatched_kind (circ : Circuit) (g : List String)
    (pre post : List Instr) (i : Instr) (o1 o2 : List Instr)
    (h5 : i.name ∉ defaultGates) (hin : i.name ∈ g)
    (hdata : circ.data = pre ++ i :: post)
    (hpre : decompose { circ with data := pre } g = ({ circ with data := o1 }, none))
    (hpost : decompose { circ with data := post } g = ({ circ with data := o2 }, none)) :
    decompose circ g = ({ circ with data := o1 ++ o2 }, none) := by
  have h1 : spliceFlat (fun op => decide (op.name ∈ g)) expandOp pre
      = Except.ok o1 := decompose_ok_data _ g _ hpre
  have h2 : spliceFlat (fun op => decide (op.name ∈ g)) expandOp post
      = Except.ok o2 := decompose_ok_data _ g _ hpost
  rw [decompose_eq_flat, hdata]
  rw [spliceFlat_mid_match _ _ pre post i [] o1 o2
    (by simp only [decide_eq_true_eq]; exact hin) (expandOp_unmatched i h5) h1 h2]
  simp

/-- Witness for C9: a raw cx listed in `gates` is silently removed. -/
theorem decompose_deletes_unmatched_kind_witness :
    decompose (Circuit.mk [Register.mk "q" 2] [] [cnot ("q", 0) ("q", 1)]) ["cx"]
      = ({ Circuit.mk [Register.mk "q" 2] [] [cnot ("q", 0) ("q", 1)] with
            data := [] }, none) :=
  decompose_deletes_unmatched_kind
    (Circuit.mk [Register.mk "q" 2] [] [cnot ("q", 0) ("q", 1)]) ["cx"]
    [] [] (cnot ("q", 0) ("q", 1)) [] []
    (by decide) (by decide) rfl (by decide) (by decide)

/-! ### Claim C4 -/

/-- C4 counterexample: with `kinds = [RemoteCX, cx]`, the expansion of the
RemoteCX macro emits cx instructions straight into the output, so the output
contains instructions whose kind is in `kinds`, refuting the claim for sets
that mix macro kinds with the primitive kinds their expansions emit. -/
theorem decompose_residual_cex :
    (decompose circScenario kindsC4).2 = none
    ∧ ∃ j ∈ (decompose circScenario kindsC4).1.data, j.name ∈ kindsC4 := by
  decide

/-- C4 (amended): for every circuit and every `kinds` drawn from the five
macro kinds only, a successful decompose output contains zero instructions
whose kind is in `kinds`; the restriction is forced because expansion
outputs are never rescanned, so primitive kinds listed in `kinds` survive. -/
theorem decompose_no_residual_macro (circ : Circuit) (kinds : List String)
    (out : Circuit) (hsub : ∀ n ∈ kinds, n ∈ defaultGates)
    (hrun : decompose circ kinds = (out, none)) :
    ∀ j ∈ out.data, j.name ∉ kinds :=
  spliceFlat_expand_names kinds hsub circ.data out.data
    (decompose_ok_data circ kinds out hrun)

/-- Witness for C4 (amended) on the scenario circuit with all five kinds,
instantiated at the first emitted instruction of the output. -/
theorem decompose_no_residual_macro_witness :
    decompose circScenario defaultGates
        = ((decompose circScenario defaultGates).1, none)
    ∧ cnot ("q", 0) ("q", 2) ∈ (decompose circScenario defaultGates).1.data
    ∧ (cnot ("q", 0) ("q", 2)).name ∉ defaultGates :=
  ⟨by decide, by decide,
   decompose_no_residual_macro circScenario defaultGates
     (decompose circScenario defaultGates).1 (by decide) (by decide)
     (cnot ("q", 0) ("q", 2)) (by decide)⟩

/-! ### Claim C1 -/

/-- C1 counterexample: `addInstr` on an empty circuit with the unknown name
Bogus does fail with the Undefined instruction error, but the instruction
sequence is NOT left unmodified: a GenEPR instruction is appended before the
name is validated. -/
theorem addInstr_unknown_cex :
    (addInstr (Circuit.mk [] [] []) "Bogus" ("x", 0) ("x", 1) [] none none).2
        = some Err.undefinedInstruction
    ∧ (addInstr (Circuit.mk [] [] []) "Bogus" ("x", 0) ("x", 1) [] none none).1.data
        = [genEPRInstr (Register.mk "q_epr" 2)]
    ∧ (Circuit.mk [] [] [] : Circuit).data = [] := by
  decide

/-- C1 (amended): calling addInstr with a macro-kind name outside the fixed
table fails with the Undefined instruction error, but only after appending a
GenEPR instruction over the resolved entanglement register (auto-provisioned
here, with both registers freshly added): the circuit keeps exactly one extra
GenEPR instruction and gains no instruction of the unknown kind. -/
theorem addInstr_unknown_appends_genEPR (circ : Circuit) (nm : String)
    (qb1 qb2 : Qubit) (params : List ℚ)
    (hnm : nm ∉ defaultGates)
    (hc : ∀ r ∈ circ.qregs ++ circ.cregs, r.name ≠ "c_epr")
    (hq : ∀ r ∈ circ.qregs ++ circ.cregs, r.name ≠ "q_epr") :
    addInstr circ nm qb1 qb2 params none none
      = ({ circ with
            cregs := circ.cregs ++ [Register.mk "c_epr" 2],
            qregs := circ.qregs ++ [Register.mk "q_epr" 2],
            data := circ.data ++
              [Instr.mk "GenEPR" params [("q_epr", 0), ("q_epr", 1)] [] none] },
          some Err.undefinedInstruction) := by
  have hany1 : (circ.qregs ++ circ.cregs).any
      (fun r => decide (r.name = "c_epr")) = false := by
    rw [List.any_eq_false]
    intro r hr
    simpa using hc r hr
  have hg1 : get_cregs circ none
      = ({ circ with cregs := circ.cregs ++ [Register.mk "c_epr" 2] },
          Except.ok (RegRef.reg (Register.mk "c_epr" 2), true)) := by
    show add_c_epr circ = _
    rw [add_c_epr, hany1]
    simp
  have hany2 : (({ circ with cregs := circ.cregs ++ [Register.mk "c_epr" 2] }
        : Circuit).qregs ++ ({ circ with
          cregs := circ.cregs ++ [Register.mk "c_epr" 2] } : Circuit).cregs).any
      (fun r => decide (r.name = "q_epr")) = false := by
    rw [List.any_eq_false]
    intro r hr
    simp only [List.mem_append] at hr
    rcases hr with hr1 | hr3 | hr4
    · simpa using hq r (List.mem_append.mpr (Or.inl hr1))
    · simpa using hq r (List.mem_append.mpr (Or.inr hr3))
    · simp only [List.mem_singleton] at hr4
      rw [hr4]
      decide
  have hg2 : get_qregs { circ with cregs := circ.cregs ++ [Register.mk "c_epr" 2] }
        none
      = ({ circ with
            cregs := circ.cregs ++ [Register.mk "c_epr" 2],
            qregs := circ.qregs ++ [Register.mk "q_epr" 2] },
          Except.ok (RegRef.reg (Register.mk "q_epr" 2), true)) := by
    show add_q_epr _ = _
    rw [add_q_epr, hany2]
    simp
  have hnotgen : ¬ nm = "GenEPR" := fun h => hnm (by rw [h]; decide)
  have hnotin : nm ∉ instrNames := fun hmem => hnm (instrNames_sub nm hmem)
  rw [addInstr, hg1]
  simp [hg2, hnotgen, hnotin, Register.bit]

/-- Witness for C1 (amended) on the empty circuit with the name Nope. -/
theorem addInstr_unknown_appends_genEPR_witness :
    addInstr (Circuit.mk [] [] []) "Nope" ("x", 0) ("x", 1) [] none none
      = (Circuit.mk [Register.mk "q_epr" 2] [Register.mk "c_epr" 2]
          [Instr.mk "GenEPR" [] [("q_epr", 0), ("q_epr", 1)] [] none],
         some Err.undefinedInstruction) :=
  addInstr_unknown_appends_genEPR (Circuit.mk [] [] []) "Nope" ("x", 0) ("x", 1) []
    (by decide) (by decide) (by decide)

/-! ### Claim C2 -/

/-- C2 counterexample: `autosubstitute` asked to substitute the kind cz,
whose operands straddle the two partitions, raises no error at all (the
second component is `none`): the cz instruction is silently deleted from the
output, refuting the claim that an UnsupportedSubstitution error is raised
at call time. -/
theorem autosubstitute_unsupported_cex :
    autosubstitute circCZ ([("q", 0)], [("q", 1)]) ["cz"] none none
      = (Circuit.mk [Register.mk "q" 2, Register.mk "q_epr" 2]
          [Register.mk "c_epr" 2] [], none) := by
  decide

/-- C2 (amended): when autosubstitute encounters a two-qubit instruction
whose kind is in `target_kinds` and whose operands straddle the two
partitions but whose kind has no remote-equivalent mapping (any kind other
than cx), it silently deletes the instruction from the output: no error is
raised and no replacement is emitted. -/
theorem autosubstitute_drops_unsupported (circ : Circuit) (cr qr : Register)
    (A B : List Qubit) (gates : List String) (i : Instr) (a b : Qubit)
    (pre post o1 o2 : List Instr)
    (hcr : cr ∈ circ.cregs) (hqr : qr ∈ circ.qregs)
    (hargs : i.qargs = [a, b])
    (hstraddle : (a ∈ A ∧ b ∈ B) ∨ (b ∈ A ∧ a ∈ B))
    (hing : i.name ∈ gates) (hncx : i.name ≠ "cx")
    (hdata : circ.data = pre ++ i :: post)
    (hpre : spliceFlat (substPred A B gates)
        (substRepl { circ with data := [] } (RegRef.reg cr) (RegRef.reg qr)) pre
      = Except.ok o1)
    (hpost : spliceFlat (substPred A B gates)
        (substRepl { circ with data := [] } (RegRef.reg cr) (RegRef.reg qr)) post
      = Except.ok o2) :
    autosubstitute circ (A, B) gates (some (RegRef.reg qr)) (some (RegRef.reg cr))
      = ({ circ with data := o1 ++ o2 }, none) := by
  rw [autosubstitute_eq_flat circ cr qr A B gates hcr hqr, hdata]
  rw [spliceFlat_mid_match _ _ pre post i [] o1 o2
    ((substPred_eq_true A B gates i a b hargs).mpr ⟨hstraddle, hing⟩)
    (substRepl_noncx _ _ _ i hncx) hpre hpost]
  simp

/-- Witness for C2 (amended): a straddling cz with pre-existing handle
references is dropped without error. -/
theorem autosubstitute_drops_unsupported_witness :
    autosubstitute
      (Circuit.mk [Register.mk "q" 2, Register.mk "qe" 2] [Register.mk "ce" 2]
        [Instr.mk "cz" [] [("q", 0), ("q", 1)] [] none])
      ([("q", 0)], [("q", 1)]) ["cz"]
      (some (RegRef.reg (Register.mk "qe" 2))) (some (RegRef.reg (Register.mk "ce" 2)))
      = ({ Circuit.mk [Register.mk "q" 2, Register.mk "qe" 2] [Register.mk "ce" 2]
            [Instr.mk "cz" [] [("q", 0), ("q", 1)] [] none] with data := [] },
         none) :=
  autosubstitute_drops_unsupported
    (Circuit.mk [Register.mk "q" 2, Register.mk "qe" 2] [Register.mk "ce" 2]
      [Instr.mk "cz" [] [("q", 0), ("q", 1)] [] none])
    (Register.mk "ce" 2) (Register.mk "qe" 2)
    [("q", 0)] [("q", 1)] ["cz"] (Instr.mk "cz" [] [("q", 0), ("q", 1)] [] none)
    ("q", 0) ("q", 1) [] [] [] []
    (by decide) (by decide) rfl (by decide) (by decide) (by decide) rfl rfl rfl

/-! ### Claim C6 -/

/-- C6: with disjoint partitions and pre-existing size-2 entanglement handle
references, autosubstitute replaces a two-qubit cx exactly when one operand
is in partition A and the other in partition B (in either operand order),
splicing in the GenEPR and RemoteCX pair at its position; every two-qubit
instruction that does not straddle the partitions passes through unchanged
at its original position; and under disjointness, both operands in A, both
in B, or an operand in neither partition all imply the straddle test fails. -/
theorem autosubstitute_partition_correct (circ : Circuit) (cr qr : Register)
    (A B : List Qubit) (i : Instr) (a b : Qubit) (pre post o1 o2 : List Instr)
    (hcr : cr ∈ circ.cregs) (hqr : qr ∈ circ.qregs)
    (hcs : cr.size = 2) (hqs : qr.size = 2)
    (hdisj : ∀ x, x ∈ A → x ∉ B)
    (hargs : i.qargs = [a, b])
    (hdata : circ.data = pre ++ i :: post)
    (hpre : spliceFlat (substPred A B ["cx"])
        (substRepl { circ with data := [] } (RegRef.reg cr) (RegRef.reg qr)) pre
      = Except.ok o1)
    (hpost : spliceFlat (substPred A B ["cx"])
        (substRepl { circ with data := [] } (RegRef.reg cr) (RegRef.reg qr)) post
      = Except.ok o2) :
    (((a ∈ A ∧ b ∈ B) ∨ (b ∈ A ∧ a ∈ B)) → i.name = "cx" →
      autosubstitute circ (A, B) ["cx"] (some (RegRef.reg qr)) (some (RegRef.reg cr))
        = ({ circ with
              data := o1 ++ genEPRInstr qr :: remoteCXInstr a b qr cr :: o2 },
            none))
    ∧ (¬ ((a ∈ A ∧ b ∈ B) ∨ (b ∈ A ∧ a ∈ B)) →
      autosubstitute circ (A, B) ["cx"] (some (RegRef.reg qr)) (some (RegRef.reg cr))
        = ({ circ with data := o1 ++ i :: o2 }, none))
    ∧ (((a ∈ A ∧ b ∈ A) ∨ (a ∈ B ∧ b ∈ B) ∨ (a ∉ A ∧ a ∉ B)) →
      ¬ ((a ∈ A ∧ b ∈ B) ∨ (b ∈ A ∧ a ∈ B))) := by
  refine ⟨?_, ?_, ?_⟩
  · intro hstraddle hname
    rw [autosubstitute_eq_flat circ cr qr A B ["cx"] hcr hqr, hdata]
    rw [spliceFlat_mid_match _ _ pre post i
      [genEPRInstr qr, remoteCXInstr a b qr cr] o1 o2
      ((substPred_eq_true A B ["cx"] i a b hargs).mpr
        ⟨hstraddle, by rw [hname]; exact List.mem_singleton.mpr rfl⟩)
      (substRepl_cx { circ with data := [] } cr qr a b i hcr hqr hcs hqs rfl
        hname hargs) hpre hpost]
    simp
  · intro hno
    rw [autosubstitute_eq_flat circ cr qr A B ["cx"] hcr hqr, hdata]
    rw [spliceFlat_mid_nomatch _ _ pre post i o1 o2
      (by
        rw [Bool.eq_false_iff]
        intro ht
        exact hno ((substPred_eq_true A B ["cx"] i a b hargs).mp ht).1)
      hpre hpost]
  · intro hcase hstr
    have hab := hdisj a
    have hbb := hdisj b
    tauto

/-- Witness for C6: a straddling cx is replaced by the GenEPR and RemoteCX
pair. -/
theorem autosubstitute_partition_correct_witness :
    autosubstitute circCX6 ([("q", 0)], [("q", 1)]) ["cx"]
      (some (RegRef.reg (Register.mk "qe" 2))) (some (RegRef.reg (Register.mk "ce" 2)))
      = ({ circCX6 with
            data := [genEPRInstr (Register.mk "qe" 2),
              remoteCXInstr ("q", 0) ("q", 1) (Register.mk "qe" 2)
                (Register.mk "ce" 2)] }, none) :=
  (autosubstitute_partition_correct circCX6 (Register.mk "ce" 2) (Register.mk "qe" 2)
    [("q", 0)] [("q", 1)] (cnot ("q", 0) ("q", 1)) ("q", 0) ("q", 1) [] [] [] []
    (by decide) (by decide) (by decide) (by decide) (by decide) rfl rfl rfl rfl).1
    (by decide) rfl

/-! ### Claim C7 -/

/-- C7 counterexample: for a name-string reference matching an existing
size-2 classical register, `get_cregs` returns the name string itself with
`created = false`, not the existing Register handle, refuting the claim
that the existing Register is returned. -/
theorem get_cregs_string_cex :
    get_cregs (Circuit.mk [] [Register.mk "foo" 2] []) (some (RegRef.name "foo"))
      = (Circuit.mk [] [Register.mk "foo" 2] [],
         Except.ok (RegRef.name "foo", false))
    ∧ RegRef.name "foo" ≠ RegRef.reg (Register.mk "foo" 2) :=
  ⟨rfl, by decide⟩

/-- C7 (amended): for a reference that matches (a handle present on the
circuit, or a name string for which a same-kind register of that name and
size 2 is present), get_cregs and get_qregs return the given reference
unchanged (the handle when given a handle, the name string when given a
string) with created = false and append nothing; repeated calls with the
same reference behave identically, so registers are never duplicated (the
final conjunct restates the first for the circuit returned by a first
call). -/
theorem registry_idempotent (circ : Circuit) (rc rq : Register) (sc sq : String)
    (hrc : rc ∈ circ.cregs) (hrq : rq ∈ circ.qregs)
    (hsc : Register.mk sc 2 ∈ circ.cregs) (hsq : Register.mk sq 2 ∈ circ.qregs) :
    get_cregs circ (some (RegRef.reg rc)) = (circ, Except.ok (RegRef.reg rc, false))
    ∧ get_cregs circ (some (RegRef.name sc))
        = (circ, Except.ok (RegRef.name sc, false))
    ∧ get_qregs circ (some (RegRef.reg rq))
        = (circ, Except.ok (RegRef.reg rq, false))
    ∧ get_qregs circ (some (RegRef.name sq))
        = (circ, Except.ok (RegRef.name sq, false))
    ∧ get_cregs (get_cregs circ (some (RegRef.reg rc))).1 (some (RegRef.reg rc))
        = (circ, Except.ok (RegRef.reg rc, false)) := by
  refine ⟨get_cregs_reg_mem circ rc hrc, get_cregs_name_mem circ sc hsc,
    get_qregs_reg_mem circ rq hrq, get_qregs_name_mem circ sq hsq, ?_⟩
  rw [get_cregs_reg_mem circ rc hrc]
  exact get_cregs_reg_mem circ rc hrc

/-- Witness for C7 (amended) on a circuit with one register of each kind. -/
theorem registry_idempotent_witness :
    get_cregs circRegPair (some (RegRef.reg (Register.mk "cc" 2)))
        = (circRegPair, Except.ok (RegRef.reg (Register.mk "cc" 2), false))
    ∧ get_cregs circRegPair (some (RegRef.name "cc"))
        = (circRegPair, Except.ok (RegRef.name "cc", false))
    ∧ get_qregs circRegPair (some (RegRef.reg (Register.mk "qq" 2)))
        = (circRegPair, Except.ok (RegRef.reg (Register.mk "qq" 2), false))
    ∧ get_qregs circRegPair (some (RegRef.name "qq"))
        = (circRegPair, Except.ok (RegRef.name "qq", false))
    ∧ get_cregs (get_cregs circRegPair
          (some (RegRef.reg (Register.mk "cc" 2)))).1
          (some (RegRef.reg (Register.mk "cc" 2)))
        = (circRegPair, Except.ok (RegRef.reg (Register.mk "cc" 2), false)) :=
  registry_idempotent circRegPair (Register.mk "cc" 2) (Register.mk "qq" 2)
    "cc" "qq" (by decide) (by decide) (by decide) (by decide)

/-! ### Claim C8 -/

/-- C8: decompose and autosubstitute are deterministic: on structurally
equal circuits and equal parameters they produce equal outputs. In the
embedding both passes are pure functions of their arguments; the source
uses only ordered list containers (the gates lists, the partition lists,
the instruction list) and looks its one dictionary up by key, so no output
depends on unordered-container iteration order or randomness. -/
theorem rewriting_deterministic (ca cb : Circuit) (ga gb : List String)
    (ra rb : List Qubit × List Qubit) (qa qb ka kb : Option RegRef)
    (hc : ca = cb) (hg : ga = gb) (hr : ra = rb) (hq : qa = qb) (hk : ka = kb) :
    decompose ca ga = decompose cb gb
    ∧ autosubstitute ca ra ga qa ka = autosubstitute cb rb gb qb kb := by
  subst hc
  subst hg
  subst hr
  subst hq
  subst hk
  exact ⟨rfl, rfl⟩

/-- Witness for C8 at concrete equal inputs. -/
theorem rewriting_deterministic_witness :
    decompose circScenario defaultGates = decompose circScenario defaultGates
    ∧ autosubstitute circScenario (([("q", 0)], [("q", 1)])) defaultGates none none
        = autosubstitute circScenario (([("q", 0)], [("q", 1)])) defaultGates
            none none :=
  rewriting_deterministic circScenario circScenario defaultGates defaultGates
    ([("q", 0)], [("q", 1)]) ([("q", 0)], [("q", 1)]) none none none none
    rfl rfl rfl rfl rfl

/-! ### Claim C10 -/

/-- C10: on a circuit already holding the 2-unit entanglement registers,
calling addInstr with the classical and quantum references given as the name
strings of those registers raises an error and appends nothing at all:
get_cregs and get_qregs return the name string itself rather than the
Register handle, so the string reaches the qargs indexing and the GenEPR
append of line 221, which fails (uncaught) before any instruction or
register is added. -/
theorem addInstr_string_refs_error (circ : Circuit) (nm : String) (cn qn : String)
    (qb1 qb2 : Qubit) (params : List ℚ)
    (hc : Register.mk cn 2 ∈ circ.cregs) (hq : Register.mk qn 2 ∈ circ.qregs) :
    addInstr circ nm qb1 qb2 params (some (RegRef.name cn)) (some (RegRef.name qn))
      = (circ, some Err.circuitError)
    ∧ get_qregs circ (some (RegRef.name qn))
        = (circ, Except.ok (RegRef.name qn, false))
    ∧ get_cregs circ (some (RegRef.name cn))
        = (circ, Except.ok (RegRef.name cn, false)) := by
  refine ⟨?_, get_qregs_name_mem circ qn hq, get_cregs_name_mem circ cn hc⟩
  rw [addInstr, get_cregs_name_mem circ cn hc]
  simp [get_qregs_name_mem circ qn hq]

/-- Witness for C10 on the circuit carrying the default entanglement
registers. -/
theorem addInstr_string_refs_error_witness :
    addInstr circEpr "RemoteCX" ("x", 0) ("x", 1) []
        (some (RegRef.name "c_epr")) (some (RegRef.name "q_epr"))
      = (circEpr, some Err.circuitError)
    ∧ get_qregs circEpr (some (RegRef.name "q_epr"))
        = (circEpr, Except.ok (RegRef.name "q_epr", false))
    ∧ get_cregs circEpr (some (RegRef.name "c_epr"))
        = (circEpr, Except.ok (RegRef.name "c_epr", false)) :=
  addInstr_string_refs_error circEpr "RemoteCX" "c_epr" "q_epr" ("x", 0) ("x", 1) []
    (by decide) (by decide)

end RemoteOps
